import Mathlib

/-!
Verification development for the SAE-204 hydrology-station ingestion pipeline
(`recup_data.py`), its query layer (`app/models.py`, `code/models/database.py`)
and its integrity-check scripts (`test_sae204.py`, `test_database.py`).

The SQLite store is modelled as six tables of rows; `INSERT OR IGNORE` is
modelled with SQLite's documented conflict semantics: UNIQUE/PRIMARY KEY and
NOT NULL violations silently skip the row, while FOREIGN KEY violations are
not covered by IGNORE and raise an IntegrityError.
-/

/-- Python truthiness of an optional string field: `None` and `""` are falsy
(`if not code_region: ...`). -/
def truthy : Option String → Bool
  | none => false
  | some s => !s.isEmpty

/-- The `rec.get(k) or None` cleaning step of the pagination loop: an empty
string is coalesced to `None`. -/
def orNone : Option String → Option String
  | none => none
  | some s => if s.isEmpty then none else some s

/-- Errors raised by the store. `sqlite3.IntegrityError` is the only one the
importer distinguishes. -/
inductive SqlError
  | integrityError
  deriving DecidableEq, Repr

structure RegionRow where
  code_region : Option String
  libelle_region : Option String
  deriving DecidableEq, Repr

structure DepartementRow where
  code_departement : Option String
  libelle_departement : Option String
  code_region : Option String
  deriving DecidableEq, Repr

structure CommuneRow where
  code_commune : Option String
  libelle_commune : Option String
  code_departement : Option String
  deriving DecidableEq, Repr

structure BassinRow where
  code_bassin : Option String
  libelle_bassin : Option String
  deriving DecidableEq, Repr

structure CoursEauRow where
  code_cours_eau : Option String
  libelle_cours_eau : Option String
  uri_cours_eau : Option String
  deriving DecidableEq, Repr

structure StationRow where
  code_station : Option String
  libelle_station : Option String
  uri_station : Option String
  etat_station : Option String
  date_maj_station : Option String
  latitude : Option Rat
  longitude : Option Rat
  coordonnee_x : Option Rat
  coordonnee_y : Option Rat
  code_region : Option String
  code_departement : Option String
  code_commune : Option String
  code_bassin : Option String
  code_cours_eau : Option String
  deriving DecidableEq, Repr

/-- The six tables of `database.db`, per the schema in the docstring of
`recup_data.py`. -/
structure DB where
  region : List RegionRow
  departement : List DepartementRow
  commune : List CommuneRow
  bassin : List BassinRow
  cours_eau : List CoursEauRow
  station : List StationRow
  deriving DecidableEq, Repr

def emptyDB : DB := ⟨[], [], [], [], [], []⟩

def hasRegionCode (db : DB) (c : Option String) : Bool :=
  db.region.any fun r => r.code_region == c

def hasDepartementCode (db : DB) (c : Option String) : Bool :=
  db.departement.any fun r => r.code_departement == c

def hasCommuneCode (db : DB) (c : Option String) : Bool :=
  db.commune.any fun r => r.code_commune == c

def hasBassinCode (db : DB) (c : Option String) : Bool :=
  db.bassin.any fun r => r.code_bassin == c

def hasCoursEauCode (db : DB) (c : Option String) : Bool :=
  db.cours_eau.any fun r => r.code_cours_eau == c

def hasStationCode (db : DB) (c : Option String) : Bool :=
  db.station.any fun r => r.code_station == c

/-- Function `insert_region` of `recup_data.py`: guard on code and label, then
`INSERT OR IGNORE` keyed on `code_region` (no foreign key, so it never
raises). -/
def insert_region (db : DB) (code_region libelle_region : Option String) :
    Except SqlError DB :=
  if !truthy code_region || !truthy libelle_region then Except.ok db
  else if hasRegionCode db code_region then Except.ok db
  else Except.ok { db with region := db.region ++ [⟨code_region, libelle_region⟩] }

/-- Function `insert_departement`: guard on department and region codes, then
`INSERT OR IGNORE`; a dangling `code_region` foreign key raises an
IntegrityError (IGNORE does not cover FK violations), uncaught here. -/
def insert_departement (db : DB)
    (code_departement libelle_departement code_region : Option String) :
    Except SqlError DB :=
  if !truthy code_departement || !truthy code_region then Except.ok db
  else if hasDepartementCode db code_departement then Except.ok db
  else if !hasRegionCode db code_region then Except.error SqlError.integrityError
  else Except.ok { db with departement :=
    db.departement ++ [⟨code_departement, libelle_departement, code_region⟩] }

/-- Function `insert_commune`: guard on commune and department codes, then
`INSERT OR IGNORE`; a dangling `code_departement` raises, uncaught here. -/
def insert_commune (db : DB)
    (code_commune libelle_commune code_departement : Option String) :
    Except SqlError DB :=
  if !truthy code_commune || !truthy code_departement then Except.ok db
  else if hasCommuneCode db code_commune then Except.ok db
  else if !hasDepartementCode db code_departement then Except.error SqlError.integrityError
  else Except.ok { db with commune :=
    db.commune ++ [⟨code_commune, libelle_commune, code_departement⟩] }

/-- Function `insert_bassin`: guard on code and label; no foreign key, never raises. -/
def insert_bassin (db : DB) (code_bassin libelle_bassin : Option String) :
    Except SqlError DB :=
  if !truthy code_bassin || !truthy libelle_bassin then Except.ok db
  else if hasBassinCode db code_bassin then Except.ok db
  else Except.ok { db with bassin := db.bassin ++ [⟨code_bassin, libelle_bassin⟩] }

/-- Function `insert_cours_eau`: guard on code and label; no foreign key, never
raises. -/
def insert_cours_eau (db : DB)
    (code_cours_eau libelle_cours_eau uri_cours_eau : Option String) :
    Except SqlError DB :=
  if !truthy code_cours_eau || !truthy libelle_cours_eau then Except.ok db
  else if hasCoursEauCode db code_cours_eau then Except.ok db
  else Except.ok { db with cours_eau :=
    db.cours_eau ++ [⟨code_cours_eau, libelle_cours_eau, uri_cours_eau⟩] }

/-- The `INSERT OR IGNORE INTO station` statement itself: NOT NULL violations
on `code_station`/`libelle_station` (and the five NOT NULL key columns) are
skipped by IGNORE, a duplicate `code_station` is skipped by IGNORE, and a
dangling foreign key raises an IntegrityError. -/
def executeStation (db : DB) (row : StationRow) : Except SqlError DB :=
  if row.code_station == none || row.libelle_station == none
      || row.code_region == none || row.code_departement == none
      || row.code_commune == none || row.code_bassin == none
      || row.code_cours_eau == none then Except.ok db
  else if hasStationCode db row.code_station then Except.ok db
  else if !hasRegionCode db row.code_region
      || !hasDepartementCode db row.code_departement
      || !hasCommuneCode db row.code_commune
      || !hasBassinCode db row.code_bassin
      || !hasCoursEauCode db row.code_cours_eau then
    Except.error SqlError.integrityError
  else Except.ok { db with station := db.station ++ [row] }

/-- Function `insert_station` of `recup_data.py`: first the "missing foreign keys"
presence check over the five code arguments (no coordinate check appears in
the function), then the insert wrapped in `try/except sqlite3.IntegrityError`
which logs and leaves the store unchanged. -/
def insert_station (db : DB)
    (code_station libelle_station uri_station etat_station date_maj_station : Option String)
    (latitude longitude coordonnee_x coordonnee_y : Option Rat)
    (code_region code_departement code_commune code_bassin code_cours_eau : Option String) :
    Except SqlError DB :=
  if !truthy code_region || !truthy code_departement || !truthy code_commune
      || !truthy code_bassin || !truthy code_cours_eau then Except.ok db
  else
    match executeStation db ⟨code_station, libelle_station, uri_station,
        etat_station, date_maj_station, latitude, longitude, coordonnee_x,
        coordonnee_y, code_region, code_departement, code_commune, code_bassin,
        code_cours_eau⟩ with
    | Except.ok db2 => Except.ok db2
    | Except.error _ => Except.ok db

/-- One flat record of the Hub'Eau `data` array, restricted to the fields the
importer requests. -/
structure Record where
  code_region : Option String
  libelle_region : Option String
  code_departement : Option String
  libelle_departement : Option String
  code_commune : Option String
  libelle_commune : Option String
  code_bassin : Option String
  libelle_bassin : Option String
  code_cours_eau : Option String
  libelle_cours_eau : Option String
  uri_cours_eau : Option String
  code_station : Option String
  libelle_station : Option String
  uri_station : Option String
  etat_station : Option String
  date_maj_station : Option String
  latitude : Option Rat
  longitude : Option Rat
  coordonnee_x : Option Rat
  coordonnee_y : Option Rat
  deriving DecidableEq, Repr

def blankRecord : Record :=
  ⟨none, none, none, none, none, none, none, none, none, none,
   none, none, none, none, none, none, none, none, none, none⟩

/-- The five referential inserts of the pagination loop, in source order
(region, departement, commune, bassin, cours_eau), on the cleaned fields.
An uncaught IntegrityError aborts the sequence. -/
def insertParents (db : DB) (r : Record) : Except SqlError DB :=
  (insert_region db (orNone r.code_region) (orNone r.libelle_region)).bind fun db1 =>
    (insert_departement db1 (orNone r.code_departement)
        (orNone r.libelle_departement) (orNone r.code_region)).bind fun db2 =>
      (insert_commune db2 (orNone r.code_commune) (orNone r.libelle_commune)
          (orNone r.code_departement)).bind fun db3 =>
        (insert_bassin db3 (orNone r.code_bassin) (orNone r.libelle_bassin)).bind fun db4 =>
          insert_cours_eau db4 (orNone r.code_cours_eau)
            (orNone r.libelle_cours_eau) (orNone r.uri_cours_eau)

/-- The station insert of the pagination loop: `insert_station` applied to the
cleaned string fields and the raw coordinates (the loop does not apply
`or None` to `latitude`/`longitude`/`coordonnee_x`/`coordonnee_y`). -/
def stationInsertOfRecord (db : DB) (r : Record) : Except SqlError DB :=
  insert_station db (orNone r.code_station) (orNone r.libelle_station)
    (orNone r.uri_station) (orNone r.etat_station) (orNone r.date_maj_station)
    r.latitude r.longitude r.coordonnee_x r.coordonnee_y
    (orNone r.code_region) (orNone r.code_departement) (orNone r.code_commune)
    (orNone r.code_bassin) (orNone r.code_cours_eau)

/-- Full processing of one record by the pagination loop (ignoring commit
boundaries): the five referential inserts, then the station insert. -/
def processRecord (db : DB) (r : Record) : Except SqlError DB :=
  (insertParents db r).bind fun db5 => stationInsertOfRecord db5 r

/-- Processing of a list of records in order; an uncaught IntegrityError
aborts the run (the script has no handler around the loop). -/
def processAll : DB → List Record → Except SqlError DB
  | db, [] => Except.ok db
  | db, r :: rs => (processRecord db r).bind fun db2 => processAll db2 rs

/-! ## Commit boundaries

`conn.commit()` makes the session state durable. The pagination loop commits
once per record, between the five referential inserts and the station insert
("Commit intermédiaire pour garantir l'existence des FK"), and once more at
the end of each page. An uncaught exception kills the script: uncommitted
session changes are rolled back and the durable state is the last commit. -/

structure RunState where
  durable : DB
  session : DB
  deriving DecidableEq, Repr

/-- Processing of one record inside the loop body, with its commit: parents
into the session, commit, then the station insert into the session. On an
uncaught IntegrityError the result is the durable state at the crash. -/
def processRecordRun (s : RunState) (r : Record) : Except DB RunState :=
  match insertParents s.session r with
  | Except.error _ => Except.error s.durable
  | Except.ok db1 =>
    match stationInsertOfRecord db1 r with
    | Except.error _ => Except.error db1
    | Except.ok db2 => Except.ok ⟨db1, db2⟩

/-- The loop body for one page: each record in order, then the end-of-page
`conn.commit()`. -/
def processPageRun : RunState → List Record → Except DB RunState
  | s, [] => Except.ok ⟨s.session, s.session⟩
  | s, r :: rs =>
    match processRecordRun s r with
    | Except.error d => Except.error d
    | Except.ok s2 => processPageRun s2 rs

/-- Constant `PAGE_SIZE` of `recup_data.py`. -/
def PAGE_SIZE : Nat := 500

/-- The pagination `while True` loop, fuelled: fetch a page; stop before any
write if it is empty; process and commit it; stop after it if it is shorter
than `PAGE_SIZE`; otherwise continue with the next page. Returns the final
state (or the durable state at an uncaught error) and the number of pages
fully processed. -/
def runPages (fetch : Nat → List Record) : Nat → Nat → RunState → Except DB RunState × Nat
  | 0, _, s => (Except.ok s, 0)
  | fuel + 1, page, s =>
    let data := fetch page
    if data.isEmpty then (Except.ok s, 0)
    else
      match processPageRun s data with
      | Except.error d => (Except.error d, 0)
      | Except.ok s2 =>
        if data.length < PAGE_SIZE then (Except.ok s2, 1)
        else
          let rest := runPages fetch fuel (page + 1) s2
          (rest.1, rest.2 + 1)

/-- Reference fold: the pages `start, start+1, ..., start+n-1` processed and
committed in order, with no fetch beyond them. -/
def pagesFold (fetch : Nat → List Record) : RunState → Nat → Nat → Except DB RunState
  | s, _, 0 => Except.ok s
  | s, start, n + 1 =>
    match processPageRun s (fetch start) with
    | Except.error d => Except.error d
    | Except.ok s2 => pagesFold fetch s2 (start + 1) n

/-! ## Query layer

`app/models.py` (class `Database`) and `code/models/database.py`
(class `DatabaseManager`). SQL comparison against a possibly-NULL column:
`NULL = x` is never true, so a NULL key matches nothing. -/

/-- SQL `=` between a nullable column value and a nullable value: true only
when both are non-NULL and equal. -/
def sqlEq (a b : Option String) : Bool :=
  match a, b with
  | some x, some y => x == y
  | _, _ => false

/-- SQL `REPLACE(s, ' ', '')` (equally Python's `s.replace(" ", "")`): every
space character is removed. -/
def stripSpaces (s : String) : String := ⟨s.data.filter fun ch => ch != ' '⟩

/-- Order used by `ORDER BY` on a nullable text column: NULLs first, then
text ascending. -/
def leOpt (a b : Option String) : Bool :=
  match a, b with
  | none, _ => true
  | some _, none => false
  | some x, some y => x ≤ y

/-- Method `Database.get_communes_by_departement` (`app/models.py`): communes of the
department ordered by label, capped by `LIMIT ?` with default `limit=20`. -/
def get_communes_by_departement (db : DB) (code_dep : String) (limit : Nat := 20) :
    List CommuneRow :=
  (((db.commune.filter fun c => sqlEq c.code_departement (some code_dep)).mergeSort
    fun a b => leOpt a.libelle_commune b.libelle_commune).take limit)

/-- Method `Database.get_stations_by_commune` (`app/models.py`): stations of the
commune ordered by label, capped by `LIMIT ?` with default `limit=20`. -/
def get_stations_by_commune (db : DB) (code_commune : String) (limit : Nat := 20) :
    List StationRow :=
  (((db.station.filter fun s => sqlEq s.code_commune (some code_commune)).mergeSort
    fun a b => leOpt a.libelle_station b.libelle_station).take limit)

/-- Method `Database.get_station` (`app/models.py`): station joined to its commune,
`WHERE s.code_station = ?` — an exact comparison on the stored code — and
`rows[0] if rows else None`. -/
def get_station (db : DB) (code_station : String) : Option (StationRow × CommuneRow) :=
  ((db.station.filter fun s => sqlEq s.code_station (some code_station)).flatMap
    fun s => (db.commune.filter fun c => sqlEq s.code_commune c.code_commune).map
      fun c => (s, c)).head?

/-- One row of `DatabaseManager.get_station_by_code`: the station joined
through commune, departement, region and cours_eau. -/
structure JoinedStation where
  s : StationRow
  c : CommuneRow
  d : DepartementRow
  r : RegionRow
  ce : CoursEauRow
  deriving DecidableEq, Repr

/-- The join of `DatabaseManager.get_station_by_code`, before its WHERE
clause. -/
def joinedStations (db : DB) : List JoinedStation :=
  db.station.flatMap fun s =>
    (db.commune.filter fun c => sqlEq s.code_commune c.code_commune).flatMap fun c =>
      (db.departement.filter fun d => sqlEq c.code_departement d.code_departement).flatMap fun d =>
        (db.region.filter fun r => sqlEq d.code_region r.code_region).flatMap fun r =>
          (db.cours_eau.filter fun ce => sqlEq s.code_cours_eau ce.code_cours_eau).map fun ce =>
            ⟨s, c, d, r, ce⟩

/-- Method `DatabaseManager.get_station_by_code` (`code/models/database.py`):
`WHERE REPLACE(s.code_station, ' ', '') = ?` with the parameter
`code_station.replace(" ", "")`, then `fetchone()`. -/
def get_station_by_code (db : DB) (code_station : String) : Option JoinedStation :=
  ((joinedStations db).filter fun j =>
    match j.s.code_station with
    | some cs => stripSpaces cs == stripSpaces code_station
    | none => false).head?

/-! ## Integrity-check scripts -/

/-- A nullable foreign-key value passes `PRAGMA foreign_key_check` when it is
NULL or its parent key exists. -/
def fkOk (parentHas : Option String → Bool) (v : Option String) : Bool :=
  v == none || parentHas v

/-- Number of rows reported by `PRAGMA foreign_key_check` over the schema of
`recup_data.py` (departement→region, commune→departement, station→its five
parents; a station row is reported once per violated foreign key). -/
def fkViolationCount (db : DB) : Nat :=
  (db.departement.filter fun d => !fkOk (hasRegionCode db) d.code_region).length
  + (db.commune.filter fun c => !fkOk (hasDepartementCode db) c.code_departement).length
  + (db.station.filter fun s => !fkOk (hasRegionCode db) s.code_region).length
  + (db.station.filter fun s => !fkOk (hasDepartementCode db) s.code_departement).length
  + (db.station.filter fun s => !fkOk (hasCommuneCode db) s.code_commune).length
  + (db.station.filter fun s => !fkOk (hasBassinCode db) s.code_bassin).length
  + (db.station.filter fun s => !fkOk (hasCoursEauCode db) s.code_cours_eau).length

/-- The `MIN_ROWS` assertion of `test_sae204.py`: every table holds at least
one row. -/
def minRowsOk (db : DB) : Bool :=
  decide (1 ≤ db.region.length) && decide (1 ≤ db.departement.length)
  && decide (1 ≤ db.commune.length) && decide (1 ≤ db.bassin.length)
  && decide (1 ≤ db.cours_eau.length) && decide (1 ≤ db.station.length)

/-- Exit status of `test_sae204.py` on an opened database: 1 as soon as
`PRAGMA foreign_key_check` returns any row or some table is under its
minimum row count, otherwise 0 (`sys.exit(0)` after all checks). -/
def test_sae204_exit (db : DB) : Nat :=
  if fkViolationCount db ≠ 0 then 1
  else if !minRowsOk db then 1
  else 0

/-- Exit status of `test_database.py` on an opened database: the script runs
`PRAGMA integrity_check` and `PRAGMA foreign_key_check` and prints their
results and the per-table row counts, but never branches on them — it has no
`sys.exit` after opening the database, so the process always exits 0. -/
def test_database_exit (_db : DB) : Nat := 0

/-! ## Concrete fixtures -/

/-- The stored value of a successful run (test fixtures only apply this to
runs that are proved to succeed). -/
def okDB : Except SqlError DB → DB
  | Except.ok d => d
  | Except.error _ => emptyDB

/-- A fully populated record: every reference code and label present,
latitude 45 and longitude 2. -/
def rFull : Record :=
  { blankRecord with
    code_region := some "R1", libelle_region := some "Reg"
    code_departement := some "D1", libelle_departement := some "Dep"
    code_commune := some "C1", libelle_commune := some "Com"
    code_bassin := some "B1", libelle_bassin := some "Bas"
    code_cours_eau := some "W1", libelle_cours_eau := some "Eau"
    code_station := some "S1", libelle_station := some "Sta"
    latitude := some 45, longitude := some 2 }

/-- Like `rFull` but with an out-of-range latitude of 95 degrees. -/
def rLat95 : Record := { rFull with code_station := some "S95", latitude := some 95 }

/-- Like `rFull` but with no watercourse fields at all. -/
def rNoCours : Record :=
  { rFull with code_cours_eau := none, libelle_cours_eau := none, uri_cours_eau := none }

/-- Commune and watercourse codes present with valid coordinates, but no
region or department code. -/
def rNoRegion : Record :=
  { blankRecord with
    code_commune := some "C1", libelle_commune := some "Com"
    code_bassin := some "B1", libelle_bassin := some "Bas"
    code_cours_eau := some "W1", libelle_cours_eau := some "Eau"
    code_station := some "S2", libelle_station := some "Sta2"
    latitude := some 45, longitude := some 2 }

/-- A record whose departement insert dangles: region code present but its
label missing, so the region row is never written and the departement insert
violates the foreign key. -/
def rDanglingDep : Record :=
  { blankRecord with code_region := some "R9", code_departement := some "D9" }

/-- Record `rFull` with the basin label missing: its basin row is skipped, so its
station insert hits a caught foreign-key IntegrityError on the first run. -/
def c3rec1 : Record := { rFull with libelle_bassin := none }

/-- A record carrying only the basin that `c3rec1` was missing. -/
def c3rec2 : Record :=
  { blankRecord with code_bassin := some "B1", libelle_bassin := some "Bas" }

def c3recs : List Record := [c3rec1, c3rec2]

/-- The station row that processing `rFull` against an empty store writes. -/
def sFullRow : StationRow :=
  ⟨some "S1", some "Sta", none, none, none, some 45, some 2, none, none,
   some "R1", some "D1", some "C1", some "B1", some "W1"⟩

def c1db95 : DB := okDB (processRecord emptyDB rLat95)

def cFullDB : DB := okDB (processRecord emptyDB rFull)

/-- The store after only the five reference inserts of `rFull` (the state the
per-record commit makes durable, before the station insert). -/
def cParentsDB : DB := okDB (insertParents emptyDB rFull)

/-- The durable store left behind when page `[rFull, rDanglingDep]` crashes
mid-page on the second record's uncaught IntegrityError. -/
def c2durable : DB :=
  match processPageRun ⟨emptyDB, emptyDB⟩ [rFull, rDanglingDep] with
  | Except.error d => d
  | Except.ok s => s.durable

/-- A station row stored with an embedded space in its code. -/
def stA123sp : StationRow :=
  ⟨some "A 123", some "Sta", none, none, none, none, none, none, none,
   some "R1", some "D1", some "C1", some "B1", some "W1"⟩

/-- A consistent store holding one fully joined station whose stored code is
`"A 123"`. -/
def c7db : DB :=
  { region := [⟨some "R1", some "Reg"⟩]
    departement := [⟨some "D1", some "Dep", some "R1"⟩]
    commune := [⟨some "C1", some "Com", some "D1"⟩]
    bassin := [⟨some "B1", some "Bas"⟩]
    cours_eau := [⟨some "W1", some "Eau", none⟩]
    station := [stA123sp] }

/-- Store `c7db` with its departement row pointed at a missing region `"RX"`: one
foreign-key violation, all tables non-empty. -/
def c9bad : DB := { c7db with departement := [⟨some "D1", some "Dep", some "RX"⟩] }

/-- A store holding just one region row. -/
def regionOnlyDB : DB := ⟨[⟨some "R1", some "Reg"⟩], [], [], [], [], []⟩

/-- A source serving exactly one full page of blank records and then an empty
page. -/
def fetchOnePage (p : Nat) : List Record :=
  if p = 1 then List.replicate 500 blankRecord else []

def runStart : RunState := ⟨emptyDB, emptyDB⟩

/-! ## Basic inversion and monotonicity lemmas -/

theorem except_bind_ok {ε α β : Type} {x : Except ε α} {f : α → Except ε β} {b : β} :
    x.bind f = Except.ok b ↔ ∃ a, x = Except.ok a ∧ f a = Except.ok b := by
  cases x <;> simp [Except.bind]

theorem ok_inj {ε α : Type} {a b : α} (h : (Except.ok a : Except ε α) = Except.ok b) :
    a = b := by
  injection h

/-- The store only grows during the import: every table of `db'` extends the
corresponding table of `db`. -/
def DBGrows (db db' : DB) : Prop :=
  (∃ e, db'.region = db.region ++ e) ∧ (∃ e, db'.departement = db.departement ++ e)
  ∧ (∃ e, db'.commune = db.commune ++ e) ∧ (∃ e, db'.bassin = db.bassin ++ e)
  ∧ (∃ e, db'.cours_eau = db.cours_eau ++ e) ∧ (∃ e, db'.station = db.station ++ e)

theorem dbGrows_refl (db : DB) : DBGrows db db :=
  ⟨⟨[], (List.append_nil _).symm⟩, ⟨[], (List.append_nil _).symm⟩,
   ⟨[], (List.append_nil _).symm⟩, ⟨[], (List.append_nil _).symm⟩,
   ⟨[], (List.append_nil _).symm⟩, ⟨[], (List.append_nil _).symm⟩⟩

theorem dbGrows_trans {db1 db2 db3 : DB} (h1 : DBGrows db1 db2) (h2 : DBGrows db2 db3) :
    DBGrows db1 db3 := by
  obtain ⟨⟨a1, e1⟩, ⟨a2, e2⟩, ⟨a3, e3⟩, ⟨a4, e4⟩, ⟨a5, e5⟩, ⟨a6, e6⟩⟩ := h1
  obtain ⟨⟨b1, f1⟩, ⟨b2, f2⟩, ⟨b3, f3⟩, ⟨b4, f4⟩, ⟨b5, f5⟩, ⟨b6, f6⟩⟩ := h2
  exact ⟨⟨a1 ++ b1, by rw [f1, e1, List.append_assoc]⟩,
         ⟨a2 ++ b2, by rw [f2, e2, List.append_assoc]⟩,
         ⟨a3 ++ b3, by rw [f3, e3, List.append_assoc]⟩,
         ⟨a4 ++ b4, by rw [f4, e4, List.append_assoc]⟩,
         ⟨a5 ++ b5, by rw [f5, e5, List.append_assoc]⟩,
         ⟨a6 ++ b6, by rw [f6, e6, List.append_assoc]⟩⟩

theorem hasRegionCode_mono {db db' : DB} (g : DBGrows db db') {c : Option String}
    (h : hasRegionCode db c = true) : hasRegionCode db' c = true := by
  obtain ⟨⟨e, he⟩, -, -, -, -, -⟩ := g
  unfold hasRegionCode at h ⊢
  rw [he, List.any_append, h, Bool.true_or]

theorem hasDepartementCode_mono {db db' : DB} (g : DBGrows db db') {c : Option String}
    (h : hasDepartementCode db c = true) : hasDepartementCode db' c = true := by
  obtain ⟨-, ⟨e, he⟩, -, -, -, -⟩ := g
  unfold hasDepartementCode at h ⊢
  rw [he, List.any_append, h, Bool.true_or]

theorem hasCommuneCode_mono {db db' : DB} (g : DBGrows db db') {c : Option String}
    (h : hasCommuneCode db c = true) : hasCommuneCode db' c = true := by
  obtain ⟨-, -, ⟨e, he⟩, -, -, -⟩ := g
  unfold hasCommuneCode at h ⊢
  rw [he, List.any_append, h, Bool.true_or]

theorem hasBassinCode_mono {db db' : DB} (g : DBGrows db db') {c : Option String}
    (h : hasBassinCode db c = true) : hasBassinCode db' c = true := by
  obtain ⟨-, -, -, ⟨e, he⟩, -, -⟩ := g
  unfold hasBassinCode at h ⊢
  rw [he, List.any_append, h, Bool.true_or]

theorem hasCoursEauCode_mono {db db' : DB} (g : DBGrows db db') {c : Option String}
    (h : hasCoursEauCode db c = true) : hasCoursEauCode db' c = true := by
  obtain ⟨-, -, -, -, ⟨e, he⟩, -⟩ := g
  unfold hasCoursEauCode at h ⊢
  rw [he, List.any_append, h, Bool.true_or]

theorem hasStationCode_mono {db db' : DB} (g : DBGrows db db') {c : Option String}
    (h : hasStationCode db c = true) : hasStationCode db' c = true := by
  obtain ⟨-, -, -, -, -, ⟨e, he⟩⟩ := g
  unfold hasStationCode at h ⊢
  rw [he, List.any_append, h, Bool.true_or]

theorem insert_region_grows {db db' : DB} {c l : Option String}
    (h : insert_region db c l = Except.ok db') : DBGrows db db' := by
  unfold insert_region at h
  split at h
  · cases ok_inj h; exact dbGrows_refl _
  · split at h
    · cases ok_inj h; exact dbGrows_refl _
    · cases ok_inj h
      refine ⟨⟨[⟨c, l⟩], rfl⟩, ?_, ?_, ?_, ?_, ?_⟩ <;>
        exact ⟨[], (List.append_nil _).symm⟩

theorem insert_departement_grows {db db' : DB} {c l cr : Option String}
    (h : insert_departement db c l cr = Except.ok db') : DBGrows db db' := by
  unfold insert_departement at h
  split at h
  · cases ok_inj h; exact dbGrows_refl _
  · split at h
    · cases ok_inj h; exact dbGrows_refl _
    · split at h
      · cases h
      · cases ok_inj h
        refine ⟨?_, ⟨[⟨c, l, cr⟩], rfl⟩, ?_, ?_, ?_, ?_⟩ <;>
          exact ⟨[], (List.append_nil _).symm⟩

theorem insert_commune_grows {db db' : DB} {c l cd : Option String}
    (h : insert_commune db c l cd = Except.ok db') : DBGrows db db' := by
  unfold insert_commune at h
  split at h
  · cases ok_inj h; exact dbGrows_refl _
  · split at h
    · cases ok_inj h; exact dbGrows_refl _
    · split at h
      · cases h
      · cases ok_inj h
        refine ⟨?_, ?_, ⟨[⟨c, l, cd⟩], rfl⟩, ?_, ?_, ?_⟩ <;>
          exact ⟨[], (List.append_nil _).symm⟩

theorem insert_bassin_grows {db db' : DB} {c l : Option String}
    (h : insert_bassin db c l = Except.ok db') : DBGrows db db' := by
  unfold insert_bassin at h
  split at h
  · cases ok_inj h; exact dbGrows_refl _
  · split at h
    · cases ok_inj h; exact dbGrows_refl _
    · cases ok_inj h
      refine ⟨?_, ?_, ?_, ⟨[⟨c, l⟩], rfl⟩, ?_, ?_⟩ <;>
        exact ⟨[], (List.append_nil _).symm⟩

theorem insert_cours_eau_grows {db db' : DB} {c l u : Option String}
    (h : insert_cours_eau db c l u = Except.ok db') : DBGrows db db' := by
  unfold insert_cours_eau at h
  split at h
  · cases ok_inj h; exact dbGrows_refl _
  · split at h
    · cases ok_inj h; exact dbGrows_refl _
    · cases ok_inj h
      refine ⟨?_, ?_, ?_, ?_, ⟨[⟨c, l, u⟩], rfl⟩, ?_⟩ <;>
        exact ⟨[], (List.append_nil _).symm⟩

theorem executeStation_grows {db db' : DB} {row : StationRow}
    (h : executeStation db row = Except.ok db') : DBGrows db db' := by
  unfold executeStation at h
  split at h
  · cases ok_inj h; exact dbGrows_refl _
  · split at h
    · cases ok_inj h; exact dbGrows_refl _
    · split at h
      · cases h
      · cases ok_inj h
        refine ⟨?_, ?_, ?_, ?_, ?_, ⟨[row], rfl⟩⟩ <;>
          exact ⟨[], (List.append_nil _).symm⟩

theorem insert_station_grows {db db' : DB}
    {cs ls us es dm : Option String} {la lo cx cy : Option Rat}
    {cr cd cc cb ce : Option String}
    (h : insert_station db cs ls us es dm la lo cx cy cr cd cc cb ce = Except.ok db') :
    DBGrows db db' := by
  unfold insert_station at h
  split at h
  · cases ok_inj h; exact dbGrows_refl _
  · split at h
    · next heq => cases ok_inj h; exact executeStation_grows heq
    · cases ok_inj h; exact dbGrows_refl _

/-! ## Effect lemmas: a successful guarded insert leaves the key present -/

theorem insert_region_done {db db' : DB} {c l : Option String}
    (hc : truthy c = true) (hl : truthy l = true)
    (h : insert_region db c l = Except.ok db') : hasRegionCode db' c = true := by
  unfold insert_region at h
  rw [hc, hl] at h
  simp only [Bool.not_true, Bool.or_self, Bool.false_eq_true, if_false] at h
  split at h
  · next hk => cases ok_inj h; exact hk
  · cases ok_inj h
    simp [hasRegionCode, List.any_append]

theorem insert_departement_done {db db' : DB} {c l cr : Option String}
    (hc : truthy c = true) (hr : truthy cr = true)
    (h : insert_departement db c l cr = Except.ok db') :
    hasDepartementCode db' c = true := by
  unfold insert_departement at h
  rw [hc, hr] at h
  simp only [Bool.not_true, Bool.or_self, Bool.false_eq_true, if_false] at h
  split at h
  · next hk => cases ok_inj h; exact hk
  · split at h
    · cases h
    · cases ok_inj h
      simp [hasDepartementCode, List.any_append]

theorem insert_commune_done {db db' : DB} {c l cd : Option String}
    (hc : truthy c = true) (hd : truthy cd = true)
    (h : insert_commune db c l cd = Except.ok db') : hasCommuneCode db' c = true := by
  unfold insert_commune at h
  rw [hc, hd] at h
  simp only [Bool.not_true, Bool.or_self, Bool.false_eq_true, if_false] at h
  split at h
  · next hk => cases ok_inj h; exact hk
  · split at h
    · cases h
    · cases ok_inj h
      simp [hasCommuneCode, List.any_append]

theorem insert_bassin_done {db db' : DB} {c l : Option String}
    (hc : truthy c = true) (hl : truthy l = true)
    (h : insert_bassin db c l = Except.ok db') : hasBassinCode db' c = true := by
  unfold insert_bassin at h
  rw [hc, hl] at h
  simp only [Bool.not_true, Bool.or_self, Bool.false_eq_true, if_false] at h
  split at h
  · next hk => cases ok_inj h; exact hk
  · cases ok_inj h
    simp [hasBassinCode, List.any_append]

theorem insert_cours_eau_done {db db' : DB} {c l u : Option String}
    (hc : truthy c = true) (hl : truthy l = true)
    (h : insert_cours_eau db c l u = Except.ok db') : hasCoursEauCode db' c = true := by
  unfold insert_cours_eau at h
  rw [hc, hl] at h
  simp only [Bool.not_true, Bool.or_self, Bool.false_eq_true, if_false] at h
  split at h
  · next hk => cases ok_inj h; exact hk
  · cases ok_inj h
    simp [hasCoursEauCode, List.any_append]

/-! ## No-op lemmas: re-insertion of an existing key changes nothing -/

theorem insert_region_noop {db : DB} {c l : Option String}
    (hk : hasRegionCode db c = true) : insert_region db c l = Except.ok db := by
  simp [insert_region, hk]

theorem insert_departement_noop {db : DB} {c l cr : Option String}
    (hk : hasDepartementCode db c = true) :
    insert_departement db c l cr = Except.ok db := by
  simp [insert_departement, hk]

theorem insert_commune_noop {db : DB} {c l cd : Option String}
    (hk : hasCommuneCode db c = true) : insert_commune db c l cd = Except.ok db := by
  simp [insert_commune, hk]

theorem insert_bassin_noop {db : DB} {c l : Option String}
    (hk : hasBassinCode db c = true) : insert_bassin db c l = Except.ok db := by
  simp [insert_bassin, hk]

theorem insert_cours_eau_noop {db : DB} {c l u : Option String}
    (hk : hasCoursEauCode db c = true) : insert_cours_eau db c l u = Except.ok db := by
  simp [insert_cours_eau, hk]

theorem insert_station_noop {db : DB}
    {cs ls us es dm : Option String} {la lo cx cy : Option Rat}
    {cr cd cc cb ce : Option String} (hk : hasStationCode db cs = true) :
    insert_station db cs ls us es dm la lo cx cy cr cd cc cb ce = Except.ok db := by
  unfold insert_station
  split
  · rfl
  · have he : executeStation db ⟨cs, ls, us, es, dm, la, lo, cx, cy, cr, cd, cc, cb, ce⟩
        = Except.ok db := by
      simp [executeStation, hk]
    rw [he]

/-! ## Composite monotonicity -/

theorem insertParents_elim {db db' : DB} {r : Record}
    (h : insertParents db r = Except.ok db') :
    ∃ db1 db2 db3 db4,
      insert_region db (orNone r.code_region) (orNone r.libelle_region) = Except.ok db1
      ∧ insert_departement db1 (orNone r.code_departement) (orNone r.libelle_departement)
          (orNone r.code_region) = Except.ok db2
      ∧ insert_commune db2 (orNone r.code_commune) (orNone r.libelle_commune)
          (orNone r.code_departement) = Except.ok db3
      ∧ insert_bassin db3 (orNone r.code_bassin) (orNone r.libelle_bassin) = Except.ok db4
      ∧ insert_cours_eau db4 (orNone r.code_cours_eau) (orNone r.libelle_cours_eau)
          (orNone r.uri_cours_eau) = Except.ok db' := by
  unfold insertParents at h
  simp only [except_bind_ok] at h
  obtain ⟨db1, h1, db2, h2, db3, h3, db4, h4, h5⟩ := h
  exact ⟨db1, db2, db3, db4, h1, h2, h3, h4, h5⟩

theorem insertParents_grows {db db' : DB} {r : Record}
    (h : insertParents db r = Except.ok db') : DBGrows db db' := by
  obtain ⟨db1, db2, db3, db4, h1, h2, h3, h4, h5⟩ := insertParents_elim h
  exact dbGrows_trans (insert_region_grows h1) (dbGrows_trans (insert_departement_grows h2)
    (dbGrows_trans (insert_commune_grows h3)
      (dbGrows_trans (insert_bassin_grows h4) (insert_cours_eau_grows h5))))

theorem stationInsertOfRecord_grows {db db' : DB} {r : Record}
    (h : stationInsertOfRecord db r = Except.ok db') : DBGrows db db' := by
  unfold stationInsertOfRecord at h
  exact insert_station_grows h

theorem processRecord_elim {db db' : DB} {r : Record}
    (h : processRecord db r = Except.ok db') :
    ∃ db5, insertParents db r = Except.ok db5
      ∧ stationInsertOfRecord db5 r = Except.ok db' := by
  unfold processRecord at h
  exact except_bind_ok.mp h

theorem processRecord_grows {db db' : DB} {r : Record}
    (h : processRecord db r = Except.ok db') : DBGrows db db' := by
  obtain ⟨db5, h5, hs⟩ := processRecord_elim h
  exact dbGrows_trans (insertParents_grows h5) (stationInsertOfRecord_grows hs)

theorem processAll_grows {recs : List Record} : ∀ {db db' : DB},
    processAll db recs = Except.ok db' → DBGrows db db' := by
  induction recs with
  | nil => intro db db' h; cases ok_inj h; exact dbGrows_refl _
  | cons r rs ih =>
    intro db db' h
    unfold processAll at h
    obtain ⟨db2, h1, h2⟩ := except_bind_ok.mp h
    exact dbGrows_trans (processRecord_grows h1) (ih h2)

/-! ## What one processed record guarantees about reference keys -/

/-- After a record has been successfully processed, every reference entity it
carries with a passing guard has its key in the store. (The station is
deliberately not part of this: its insert can be skipped by a caught
IntegrityError.) -/
def refsDone (r : Record) (db : DB) : Prop :=
  (truthy (orNone r.code_region) = true → truthy (orNone r.libelle_region) = true →
    hasRegionCode db (orNone r.code_region) = true)
  ∧ (truthy (orNone r.code_departement) = true → truthy (orNone r.code_region) = true →
    hasDepartementCode db (orNone r.code_departement) = true)
  ∧ (truthy (orNone r.code_commune) = true → truthy (orNone r.code_departement) = true →
    hasCommuneCode db (orNone r.code_commune) = true)
  ∧ (truthy (orNone r.code_bassin) = true → truthy (orNone r.libelle_bassin) = true →
    hasBassinCode db (orNone r.code_bassin) = true)
  ∧ (truthy (orNone r.code_cours_eau) = true → truthy (orNone r.libelle_cours_eau) = true →
    hasCoursEauCode db (orNone r.code_cours_eau) = true)

theorem refsDone_mono {r : Record} {db db' : DB} (g : DBGrows db db')
    (h : refsDone r db) : refsDone r db' := by
  obtain ⟨h1, h2, h3, h4, h5⟩ := h
  exact ⟨fun a b => hasRegionCode_mono g (h1 a b),
         fun a b => hasDepartementCode_mono g (h2 a b),
         fun a b => hasCommuneCode_mono g (h3 a b),
         fun a b => hasBassinCode_mono g (h4 a b),
         fun a b => hasCoursEauCode_mono g (h5 a b)⟩

theorem processRecord_refsDone {db db' : DB} {r : Record}
    (h : processRecord db r = Except.ok db') : refsDone r db' := by
  obtain ⟨db5, hp, hs⟩ := processRecord_elim h
  obtain ⟨db1, db2, db3, db4, h1, h2, h3, h4, h5⟩ := insertParents_elim hp
  have g2 := insert_departement_grows h2
  have g3 := insert_commune_grows h3
  have g4 := insert_bassin_grows h4
  have g5 := insert_cours_eau_grows h5
  have gs := stationInsertOfRecord_grows hs
  refine ⟨fun a b => ?_, fun a b => ?_, fun a b => ?_, fun a b => ?_, fun a b => ?_⟩
  · exact hasRegionCode_mono gs (hasRegionCode_mono g5 (hasRegionCode_mono g4
      (hasRegionCode_mono g3 (hasRegionCode_mono g2 (insert_region_done a b h1)))))
  · exact hasDepartementCode_mono gs (hasDepartementCode_mono g5
      (hasDepartementCode_mono g4 (hasDepartementCode_mono g3
        (insert_departement_done a b h2))))
  · exact hasCommuneCode_mono gs (hasCommuneCode_mono g5 (hasCommuneCode_mono g4
      (insert_commune_done a b h3)))
  · exact hasBassinCode_mono gs (hasBassinCode_mono g5 (insert_bassin_done a b h4))
  · exact hasCoursEauCode_mono gs (insert_cours_eau_done a b h5)

theorem processAll_refsDone {recs : List Record} : ∀ {db db' : DB},
    processAll db recs = Except.ok db' → ∀ r ∈ recs, refsDone r db' := by
  induction recs with
  | nil => intro db db' _ r hr; cases hr
  | cons r0 rs ih =>
    intro db db' h r hr
    unfold processAll at h
    obtain ⟨db2, h1, h2⟩ := except_bind_ok.mp h
    rcases List.mem_cons.mp hr with rfl | hr2
    · exact refsDone_mono (processAll_grows h2) (processRecord_refsDone h1)
    · exact ih h2 r hr2

/-! ## Re-running a record against a store that already holds its keys -/

theorem insert_region_idem {db : DB} {c l : Option String}
    (hd : truthy c = true → truthy l = true → hasRegionCode db c = true) :
    insert_region db c l = Except.ok db := by
  cases hc : truthy c with
  | false => simp [insert_region, hc]
  | true =>
    cases hl : truthy l with
    | false => simp [insert_region, hc, hl]
    | true => exact insert_region_noop (hd hc hl)

theorem insert_departement_idem {db : DB} {c l cr : Option String}
    (hd : truthy c = true → truthy cr = true → hasDepartementCode db c = true) :
    insert_departement db c l cr = Except.ok db := by
  cases hc : truthy c with
  | false => simp [insert_departement, hc]
  | true =>
    cases hr : truthy cr with
    | false => simp [insert_departement, hc, hr]
    | true => exact insert_departement_noop (hd hc hr)

theorem insert_commune_idem {db : DB} {c l cd : Option String}
    (hd : truthy c = true → truthy cd = true → hasCommuneCode db c = true) :
    insert_commune db c l cd = Except.ok db := by
  cases hc : truthy c with
  | false => simp [insert_commune, hc]
  | true =>
    cases hcd : truthy cd with
    | false => simp [insert_commune, hc, hcd]
    | true => exact insert_commune_noop (hd hc hcd)

theorem insert_bassin_idem {db : DB} {c l : Option String}
    (hd : truthy c = true → truthy l = true → hasBassinCode db c = true) :
    insert_bassin db c l = Except.ok db := by
  cases hc : truthy c with
  | false => simp [insert_bassin, hc]
  | true =>
    cases hl : truthy l with
    | false => simp [insert_bassin, hc, hl]
    | true => exact insert_bassin_noop (hd hc hl)

theorem insert_cours_eau_idem {db : DB} {c l u : Option String}
    (hd : truthy c = true → truthy l = true → hasCoursEauCode db c = true) :
    insert_cours_eau db c l u = Except.ok db := by
  cases hc : truthy c with
  | false => simp [insert_cours_eau, hc]
  | true =>
    cases hl : truthy l with
    | false => simp [insert_cours_eau, hc, hl]
    | true => exact insert_cours_eau_noop (hd hc hl)

theorem insertParents_idem {db : DB} {r : Record} (hd : refsDone r db) :
    insertParents db r = Except.ok db := by
  obtain ⟨h1, h2, h3, h4, h5⟩ := hd
  unfold insertParents
  rw [insert_region_idem h1]
  show (insert_departement db _ _ _).bind _ = _
  rw [insert_departement_idem h2]
  show (insert_commune db _ _ _).bind _ = _
  rw [insert_commune_idem h3]
  show (insert_bassin db _ _).bind _ = _
  rw [insert_bassin_idem h4]
  show insert_cours_eau db _ _ _ = _
  exact insert_cours_eau_idem h5

/-! ## The station insert never raises and only touches the station table -/

theorem insert_station_total (db : DB)
    (cs ls us es dm : Option String) (la lo cx cy : Option Rat)
    (cr cd cc cb ce : Option String) :
    ∃ db', insert_station db cs ls us es dm la lo cx cy cr cd cc cb ce
      = Except.ok db' := by
  unfold insert_station
  split
  · exact ⟨db, rfl⟩
  · cases he : executeStation db ⟨cs, ls, us, es, dm, la, lo, cx, cy, cr, cd, cc, cb, ce⟩ with
    | error e => exact ⟨db, rfl⟩
    | ok db2 => exact ⟨db2, rfl⟩

theorem executeStation_refs {db db' : DB} {row : StationRow}
    (h : executeStation db row = Except.ok db') :
    db'.region = db.region ∧ db'.departement = db.departement
    ∧ db'.commune = db.commune ∧ db'.bassin = db.bassin
    ∧ db'.cours_eau = db.cours_eau ∧ ∃ e, db'.station = db.station ++ e := by
  unfold executeStation at h
  split at h
  · cases ok_inj h; exact ⟨rfl, rfl, rfl, rfl, rfl, [], (List.append_nil _).symm⟩
  · split at h
    · cases ok_inj h; exact ⟨rfl, rfl, rfl, rfl, rfl, [], (List.append_nil _).symm⟩
    · split at h
      · cases h
      · cases ok_inj h; exact ⟨rfl, rfl, rfl, rfl, rfl, [row], rfl⟩

theorem insert_station_refs {db db' : DB}
    {cs ls us es dm : Option String} {la lo cx cy : Option Rat}
    {cr cd cc cb ce : Option String}
    (h : insert_station db cs ls us es dm la lo cx cy cr cd cc cb ce = Except.ok db') :
    db'.region = db.region ∧ db'.departement = db.departement
    ∧ db'.commune = db.commune ∧ db'.bassin = db.bassin
    ∧ db'.cours_eau = db.cours_eau ∧ ∃ e, db'.station = db.station ++ e := by
  unfold insert_station at h
  split at h
  · cases ok_inj h; exact ⟨rfl, rfl, rfl, rfl, rfl, [], (List.append_nil _).symm⟩
  · split at h
    · next heq => cases ok_inj h; exact executeStation_refs heq
    · cases ok_inj h; exact ⟨rfl, rfl, rfl, rfl, rfl, [], (List.append_nil _).symm⟩

theorem stationInsertOfRecord_total (db : DB) (r : Record) :
    ∃ db', stationInsertOfRecord db r = Except.ok db' := by
  unfold stationInsertOfRecord
  exact insert_station_total db _ _ _ _ _ _ _ _ _ _ _ _ _ _

/-- The five reference tables are unchanged between two stores. -/
def sameRefs (db db' : DB) : Prop :=
  db'.region = db.region ∧ db'.departement = db.departement
  ∧ db'.commune = db.commune ∧ db'.bassin = db.bassin
  ∧ db'.cours_eau = db.cours_eau

theorem refsDone_of_sameRefs {r : Record} {db db' : DB} (hs : sameRefs db db')
    (h : refsDone r db) : refsDone r db' := by
  obtain ⟨e1, e2, e3, e4, e5⟩ := hs
  obtain ⟨h1, h2, h3, h4, h5⟩ := h
  refine ⟨fun a b => ?_, fun a b => ?_, fun a b => ?_, fun a b => ?_, fun a b => ?_⟩
  · unfold hasRegionCode; rw [e1]; exact h1 a b
  · unfold hasDepartementCode; rw [e2]; exact h2 a b
  · unfold hasCommuneCode; rw [e3]; exact h3 a b
  · unfold hasBassinCode; rw [e4]; exact h4 a b
  · unfold hasCoursEauCode; rw [e5]; exact h5 a b

theorem processRecord_idem {db : DB} {r : Record} (hd : refsDone r db) :
    ∃ db', processRecord db r = Except.ok db' ∧ sameRefs db db'
      ∧ ∃ e, db'.station = db.station ++ e := by
  obtain ⟨db', hs⟩ := stationInsertOfRecord_total db r
  have hrefs := insert_station_refs (by unfold stationInsertOfRecord at hs; exact hs)
  refine ⟨db', ?_, ⟨hrefs.1, hrefs.2.1, hrefs.2.2.1, hrefs.2.2.2.1, hrefs.2.2.2.2.1⟩,
    hrefs.2.2.2.2.2⟩
  unfold processRecord
  rw [insertParents_idem hd]
  exact hs

theorem processAll_secondRun (recs : List Record) : ∀ {db : DB},
    (∀ r ∈ recs, refsDone r db) →
    ∃ db2, processAll db recs = Except.ok db2 ∧ sameRefs db db2
      ∧ ∃ e, db2.station = db.station ++ e := by
  induction recs with
  | nil =>
    intro db _
    exact ⟨db, rfl, ⟨rfl, rfl, rfl, rfl, rfl⟩, [], (List.append_nil _).symm⟩
  | cons r rs ih =>
    intro db hall
    obtain ⟨db1, hp, hs1, e1, he1⟩ := processRecord_idem (hall r (List.mem_cons_self r rs))
    obtain ⟨db2, hq, hs2, e2, he2⟩ := ih fun r2 hr2 =>
      refsDone_of_sameRefs hs1 (hall r2 (List.mem_cons_of_mem r hr2))
    refine ⟨db2, ?_, ?_, e1 ++ e2, ?_⟩
    · unfold processAll
      rw [hp]
      exact hq
    · exact ⟨hs2.1.trans hs1.1, hs2.2.1.trans hs1.2.1, hs2.2.2.1.trans hs1.2.2.1,
        hs2.2.2.2.1.trans hs1.2.2.2.1, hs2.2.2.2.2.trans hs1.2.2.2.2⟩
    · rw [he2, he1, List.append_assoc]

/-! ## Provenance of station rows -/

theorem insert_region_station {db db' : DB} {c l : Option String}
    (h : insert_region db c l = Except.ok db') : db'.station = db.station := by
  unfold insert_region at h
  split at h
  · cases ok_inj h; rfl
  · split at h
    · cases ok_inj h; rfl
    · cases ok_inj h; rfl

theorem insert_departement_station {db db' : DB} {c l cr : Option String}
    (h : insert_departement db c l cr = Except.ok db') : db'.station = db.station := by
  unfold insert_departement at h
  split at h
  · cases ok_inj h; rfl
  · split at h
    · cases ok_inj h; rfl
    · split at h
      · cases h
      · cases ok_inj h; rfl

theorem insert_commune_station {db db' : DB} {c l cd : Option String}
    (h : insert_commune db c l cd = Except.ok db') : db'.station = db.station := by
  unfold insert_commune at h
  split at h
  · cases ok_inj h; rfl
  · split at h
    · cases ok_inj h; rfl
    · split at h
      · cases h
      · cases ok_inj h; rfl

theorem insert_bassin_station {db db' : DB} {c l : Option String}
    (h : insert_bassin db c l = Except.ok db') : db'.station = db.station := by
  unfold insert_bassin at h
  split at h
  · cases ok_inj h; rfl
  · split at h
    · cases ok_inj h; rfl
    · cases ok_inj h; rfl

theorem insert_cours_eau_station {db db' : DB} {c l u : Option String}
    (h : insert_cours_eau db c l u = Except.ok db') : db'.station = db.station := by
  unfold insert_cours_eau at h
  split at h
  · cases ok_inj h; rfl
  · split at h
    · cases ok_inj h; rfl
    · cases ok_inj h; rfl

theorem insertParents_station {db db' : DB} {r : Record}
    (h : insertParents db r = Except.ok db') : db'.station = db.station := by
  obtain ⟨db1, db2, db3, db4, h1, h2, h3, h4, h5⟩ := insertParents_elim h
  rw [insert_cours_eau_station h5, insert_bassin_station h4, insert_commune_station h3,
    insert_departement_station h2, insert_region_station h1]

theorem executeStation_mem {db db' : DB} {row : StationRow}
    (h : executeStation db row = Except.ok db') {s : StationRow}
    (hs : s ∈ db'.station) : s ∈ db.station ∨ s = row := by
  unfold executeStation at h
  split at h
  · cases ok_inj h; exact Or.inl hs
  · split at h
    · cases ok_inj h; exact Or.inl hs
    · split at h
      · cases h
      · cases ok_inj h
        rcases List.mem_append.mp hs with hmem | hone
        · exact Or.inl hmem
        · exact Or.inr (List.mem_singleton.mp hone)

theorem insert_station_codes {db db' : DB}
    {cs ls us es dm : Option String} {la lo cx cy : Option Rat}
    {cr cd cc cb ce : Option String}
    (h : insert_station db cs ls us es dm la lo cx cy cr cd cc cb ce = Except.ok db')
    {s : StationRow} (hs : s ∈ db'.station) :
    s ∈ db.station ∨ (truthy s.code_region = true ∧ truthy s.code_departement = true
      ∧ truthy s.code_commune = true ∧ truthy s.code_bassin = true
      ∧ truthy s.code_cours_eau = true) := by
  unfold insert_station at h
  split at h
  · cases ok_inj h; exact Or.inl hs
  · next hg =>
    have hg2 : (!truthy cr || !truthy cd || !truthy cc || !truthy cb || !truthy ce)
        = false := Bool.of_not_eq_true hg
    simp only [Bool.or_eq_false_iff, Bool.not_eq_false'] at hg2
    obtain ⟨⟨⟨⟨hr, hd⟩, hc⟩, hb⟩, he⟩ := hg2
    split at h
    · next heq =>
      cases ok_inj h
      rcases executeStation_mem heq hs with hmem | rfl
      · exact Or.inl hmem
      · exact Or.inr ⟨hr, hd, hc, hb, he⟩
    · cases ok_inj h; exact Or.inl hs

/-- Any station row present after one record is processed either was already
present or carries all five non-null reference codes: the importer never
writes a station with a missing reference code, and applies no other filter
(in particular no coordinate filter). -/
theorem processRecord_station_codes {db db' : DB} {r : Record}
    (h : processRecord db r = Except.ok db') {s : StationRow} (hs : s ∈ db'.station) :
    s ∈ db.station ∨ (truthy s.code_region = true ∧ truthy s.code_departement = true
      ∧ truthy s.code_commune = true ∧ truthy s.code_bassin = true
      ∧ truthy s.code_cours_eau = true) := by
  obtain ⟨db5, hp, hsi⟩ := processRecord_elim h
  have hst := insertParents_station hp
  have := insert_station_codes (by unfold stationInsertOfRecord at hsi; exact hsi) hs
  rw [hst] at this
  exact this

/-! ## Totality and success lemmas for the guarded inserts -/

theorem insert_region_total (db : DB) (c l : Option String) :
    ∃ db', insert_region db c l = Except.ok db' := by
  unfold insert_region
  split
  · exact ⟨db, rfl⟩
  · split
    · exact ⟨db, rfl⟩
    · exact ⟨_, rfl⟩

theorem insert_bassin_total (db : DB) (c l : Option String) :
    ∃ db', insert_bassin db c l = Except.ok db' := by
  unfold insert_bassin
  split
  · exact ⟨db, rfl⟩
  · split
    · exact ⟨db, rfl⟩
    · exact ⟨_, rfl⟩

theorem insert_cours_eau_total (db : DB) (c l u : Option String) :
    ∃ db', insert_cours_eau db c l u = Except.ok db' := by
  unfold insert_cours_eau
  split
  · exact ⟨db, rfl⟩
  · split
    · exact ⟨db, rfl⟩
    · exact ⟨_, rfl⟩

theorem insert_departement_total_of_fk {db : DB} {c l cr : Option String}
    (hfk : hasRegionCode db cr = true) :
    ∃ db', insert_departement db c l cr = Except.ok db' := by
  unfold insert_departement
  split
  · exact ⟨db, rfl⟩
  · split
    · exact ⟨db, rfl⟩
    · split
      · next hbad => rw [hfk] at hbad; cases hbad
      · exact ⟨_, rfl⟩

theorem insert_commune_total_of_fk {db : DB} {c l cd : Option String}
    (hfk : hasDepartementCode db cd = true) :
    ∃ db', insert_commune db c l cd = Except.ok db' := by
  unfold insert_commune
  split
  · exact ⟨db, rfl⟩
  · split
    · exact ⟨db, rfl⟩
    · split
      · next hbad => rw [hfk] at hbad; cases hbad
      · exact ⟨_, rfl⟩

theorem truthy_beq_none {x : Option String} (h : truthy x = true) : (x == none) = false := by
  cases x with
  | none => cases h
  | some s => rfl

/-- When the five reference codes are present and their parent rows exist, the
station insert succeeds and afterwards the station key is in the table
(inserted now, or already there) — regardless of the coordinate values. -/
theorem insert_station_done {db : DB}
    {cs ls us es dm : Option String} {la lo cx cy : Option Rat}
    {cr cd cc cb ce : Option String}
    (hcs : truthy cs = true) (hls : truthy ls = true)
    (hcr : truthy cr = true) (hcd : truthy cd = true) (hcc : truthy cc = true)
    (hcb : truthy cb = true) (hce : truthy ce = true)
    (fr : hasRegionCode db cr = true) (fd : hasDepartementCode db cd = true)
    (fc : hasCommuneCode db cc = true) (fb : hasBassinCode db cb = true)
    (fe : hasCoursEauCode db ce = true) :
    ∃ db', insert_station db cs ls us es dm la lo cx cy cr cd cc cb ce = Except.ok db'
      ∧ hasStationCode db' cs = true := by
  have he : executeStation db ⟨cs, ls, us, es, dm, la, lo, cx, cy, cr, cd, cc, cb, ce⟩
      = (if hasStationCode db cs then Except.ok db
         else Except.ok { db with station := db.station
           ++ [⟨cs, ls, us, es, dm, la, lo, cx, cy, cr, cd, cc, cb, ce⟩] }) := by
    unfold executeStation
    simp only [truthy_beq_none hcs, truthy_beq_none hls, truthy_beq_none hcr,
      truthy_beq_none hcd, truthy_beq_none hcc, truthy_beq_none hcb,
      truthy_beq_none hce, fr, fd, fc, fb, fe, Bool.not_true, Bool.or_self,
      Bool.or_false, Bool.false_eq_true, if_false]
  have hg : (!truthy cr || !truthy cd || !truthy cc || !truthy cb || !truthy ce)
      = false := by rw [hcr, hcd, hcc, hcb, hce]; rfl
  unfold insert_station
  rw [hg]
  simp only [Bool.false_eq_true, if_false, he]
  cases hk : hasStationCode db cs with
  | true => exact ⟨db, by rw [if_pos rfl], hk⟩
  | false =>
    refine ⟨_, by rw [if_neg (by simp)], ?_⟩
    simp [hasStationCode, List.any_append]

theorem insert_station_skip {db : DB}
    {cs ls us es dm : Option String} {la lo cx cy : Option Rat}
    {cr cd cc cb ce : Option String} (hce : truthy ce = false) :
    insert_station db cs ls us es dm la lo cx cy cr cd cc cb ce = Except.ok db := by
  unfold insert_station
  rw [hce]
  simp

theorem insertParents_intro {db db1 db2 db3 db4 db5 : DB} {r : Record}
    (h1 : insert_region db (orNone r.code_region) (orNone r.libelle_region)
      = Except.ok db1)
    (h2 : insert_departement db1 (orNone r.code_departement)
      (orNone r.libelle_departement) (orNone r.code_region) = Except.ok db2)
    (h3 : insert_commune db2 (orNone r.code_commune) (orNone r.libelle_commune)
      (orNone r.code_departement) = Except.ok db3)
    (h4 : insert_bassin db3 (orNone r.code_bassin) (orNone r.libelle_bassin)
      = Except.ok db4)
    (h5 : insert_cours_eau db4 (orNone r.code_cours_eau) (orNone r.libelle_cours_eau)
      (orNone r.uri_cours_eau) = Except.ok db5) :
    insertParents db r = Except.ok db5 := by
  unfold insertParents
  rw [h1]
  show (insert_departement db1 _ _ _).bind _ = _
  rw [h2]
  show (insert_commune db2 _ _ _).bind _ = _
  rw [h3]
  show (insert_bassin db3 _ _).bind _ = _
  rw [h4]
  show insert_cours_eau db4 _ _ _ = _
  exact h5

/-- A record carrying all five reference codes (with the labels its parent
guards require) gets its station persisted, whatever its coordinates: after
processing, the station key is present in the station table. -/
theorem processRecord_station_inserted {db : DB} {r : Record}
    (hcr : truthy (orNone r.code_region) = true)
    (hlr : truthy (orNone r.libelle_region) = true)
    (hcd : truthy (orNone r.code_departement) = true)
    (hcc : truthy (orNone r.code_commune) = true)
    (hcb : truthy (orNone r.code_bassin) = true)
    (hlb : truthy (orNone r.libelle_bassin) = true)
    (hce : truthy (orNone r.code_cours_eau) = true)
    (hle : truthy (orNone r.libelle_cours_eau) = true)
    (hcs : truthy (orNone r.code_station) = true)
    (hls : truthy (orNone r.libelle_station) = true) :
    ∃ db', processRecord db r = Except.ok db'
      ∧ hasStationCode db' (orNone r.code_station) = true := by
  obtain ⟨db1, h1⟩ := insert_region_total db (orNone r.code_region) (orNone r.libelle_region)
  have fr1 := insert_region_done hcr hlr h1
  obtain ⟨db2, h2⟩ := insert_departement_total_of_fk (c := orNone r.code_departement)
    (l := orNone r.libelle_departement) fr1
  have fd2 := insert_departement_done hcd hcr h2
  have fr2 := hasRegionCode_mono (insert_departement_grows h2) fr1
  obtain ⟨db3, h3⟩ := insert_commune_total_of_fk (c := orNone r.code_commune)
    (l := orNone r.libelle_commune) fd2
  have g3 := insert_commune_grows h3
  have fc3 := insert_commune_done hcc hcd h3
  have fr3 := hasRegionCode_mono g3 fr2
  have fd3 := hasDepartementCode_mono g3 fd2
  obtain ⟨db4, h4⟩ := insert_bassin_total db3 (orNone r.code_bassin) (orNone r.libelle_bassin)
  have g4 := insert_bassin_grows h4
  have fb4 := insert_bassin_done hcb hlb h4
  have fr4 := hasRegionCode_mono g4 fr3
  have fd4 := hasDepartementCode_mono g4 fd3
  have fc4 := hasCommuneCode_mono g4 fc3
  obtain ⟨db5, h5⟩ := insert_cours_eau_total db4 (orNone r.code_cours_eau)
    (orNone r.libelle_cours_eau) (orNone r.uri_cours_eau)
  have g5 := insert_cours_eau_grows h5
  have fe5 := insert_cours_eau_done hce hle h5
  have fr5 := hasRegionCode_mono g5 fr4
  have fd5 := hasDepartementCode_mono g5 fd4
  have fc5 := hasCommuneCode_mono g5 fc4
  have fb5 := hasBassinCode_mono g5 fb4
  obtain ⟨db', hs, hst⟩ := @insert_station_done db5 (orNone r.code_station)
    (orNone r.libelle_station) (orNone r.uri_station) (orNone r.etat_station)
    (orNone r.date_maj_station) r.latitude r.longitude r.coordonnee_x
    r.coordonnee_y (orNone r.code_region) (orNone r.code_departement)
    (orNone r.code_commune) (orNone r.code_bassin) (orNone r.code_cours_eau)
    hcs hls hcr hcd hcc hcb hce fr5 fd5 fc5 fb5 fe5
  refine ⟨db', ?_, hst⟩
  unfold processRecord
  rw [insertParents_intro h1 h2 h3 h4 h5]
  exact hs

/-- A record with a full region/departement/commune chain but no watercourse
code: processing succeeds, the three geography keys are persisted, and the
station table is untouched. -/
theorem processRecord_geography_only {db : DB} {r : Record}
    (hcr : truthy (orNone r.code_region) = true)
    (hlr : truthy (orNone r.libelle_region) = true)
    (hcd : truthy (orNone r.code_departement) = true)
    (hcc : truthy (orNone r.code_commune) = true)
    (hce : orNone r.code_cours_eau = none) :
    ∃ db', processRecord db r = Except.ok db'
      ∧ hasRegionCode db' (orNone r.code_region) = true
      ∧ hasDepartementCode db' (orNone r.code_departement) = true
      ∧ hasCommuneCode db' (orNone r.code_commune) = true
      ∧ db'.station = db.station := by
  obtain ⟨db1, h1⟩ := insert_region_total db (orNone r.code_region) (orNone r.libelle_region)
  have fr1 := insert_region_done hcr hlr h1
  obtain ⟨db2, h2⟩ := insert_departement_total_of_fk (c := orNone r.code_departement)
    (l := orNone r.libelle_departement) fr1
  have fd2 := insert_departement_done hcd hcr h2
  have fr2 := hasRegionCode_mono (insert_departement_grows h2) fr1
  obtain ⟨db3, h3⟩ := insert_commune_total_of_fk (c := orNone r.code_commune)
    (l := orNone r.libelle_commune) fd2
  have g3 := insert_commune_grows h3
  have fc3 := insert_commune_done hcc hcd h3
  have fr3 := hasRegionCode_mono g3 fr2
  have fd3 := hasDepartementCode_mono g3 fd2
  obtain ⟨db4, h4⟩ := insert_bassin_total db3 (orNone r.code_bassin) (orNone r.libelle_bassin)
  have g4 := insert_bassin_grows h4
  have fr4 := hasRegionCode_mono g4 fr3
  have fd4 := hasDepartementCode_mono g4 fd3
  have fc4 := hasCommuneCode_mono g4 fc3
  obtain ⟨db5, h5⟩ := insert_cours_eau_total db4 (orNone r.code_cours_eau)
    (orNone r.libelle_cours_eau) (orNone r.uri_cours_eau)
  have g5 := insert_cours_eau_grows h5
  have fr5 := hasRegionCode_mono g5 fr4
  have fd5 := hasDepartementCode_mono g5 fd4
  have fc5 := hasCommuneCode_mono g5 fc4
  have hskip : stationInsertOfRecord db5 r = Except.ok db5 := by
    unfold stationInsertOfRecord
    exact insert_station_skip (by rw [hce]; rfl)
  refine ⟨db5, ?_, fr5, fd5, fc5, ?_⟩
  · unfold processRecord
    rw [insertParents_intro h1 h2 h3 h4 h5]
    exact hskip
  · have hst5 := insertParents_station (insertParents_intro h1 h2 h3 h4 h5)
    exact hst5

/-! ## Commit-boundary lemmas -/

theorem processRecordRun_elim {s s' : RunState} {r : Record}
    (h : processRecordRun s r = Except.ok s') :
    insertParents s.session r = Except.ok s'.durable
      ∧ stationInsertOfRecord s'.durable r = Except.ok s'.session := by
  unfold processRecordRun at h
  split at h
  · cases h
  · next db1 hp =>
    split at h
    · cases h
    · next db2 hst =>
      cases ok_inj h
      exact ⟨hp, hst⟩

theorem processPageRun_durable (recs : List Record) : ∀ {s s' : RunState},
    processPageRun s recs = Except.ok s' → s'.durable = s'.session := by
  induction recs with
  | nil =>
    intro s s' h
    cases ok_inj h
    rfl
  | cons r rs ih =>
    intro s s' h
    unfold processPageRun at h
    split at h
    · cases h
    · next s2 _ => exact ih h

/-! ## Pagination-loop lemmas -/

theorem runPages_spec (fetch : Nat → List Record) :
    ∀ (N : Nat) (start : Nat) (s sN : RunState) (fuel : Nat),
      (∀ i, i < N → (fetch (start + i)).length = PAGE_SIZE) →
      fetch (start + N) = [] →
      pagesFold fetch s start N = Except.ok sN →
      N + 1 ≤ fuel →
      runPages fetch fuel start s = (Except.ok sN, N) := by
  intro N
  induction N with
  | zero =>
    intro start s sN fuel _ hempty hok hfuel
    obtain ⟨f, rfl⟩ : ∃ f, fuel = f + 1 := ⟨fuel - 1, by omega⟩
    cases ok_inj hok
    show runPages fetch (f + 1) start s = (Except.ok s, 0)
    unfold runPages
    rw [Nat.add_zero] at hempty
    simp [hempty]
  | succ N ih =>
    intro start s sN fuel hfull hempty hok hfuel
    obtain ⟨f, rfl⟩ : ∃ f, fuel = f + 1 := ⟨fuel - 1, by omega⟩
    have hlen : (fetch start).length = PAGE_SIZE := by
      have := hfull 0 (Nat.succ_pos N)
      rwa [Nat.add_zero] at this
    unfold pagesFold at hok
    rcases hpage : processPageRun s (fetch start) with d | s2
    · rw [hpage] at hok; cases hok
    · rw [hpage] at hok
      have hrest := ih (start + 1) s2 sN f
        (fun i hi => by
          have := hfull (i + 1) (by omega)
          rwa [show start + (i + 1) = start + 1 + i by omega] at this)
        (by rwa [show start + 1 + N = start + (N + 1) by omega])
        hok (by omega)
      have hne : (fetch start).isEmpty = false := by
        cases hfs : fetch start with
        | nil => rw [hfs] at hlen; simp [PAGE_SIZE] at hlen
        | cons a l => rfl
      unfold runPages
      simp [hne, hpage, hlen, hrest, PAGE_SIZE]

/-! ## Query-layer lemmas -/

theorem head?_isSome_of_mem {α : Type} {l : List α} {a : α} (h : a ∈ l) :
    l.head?.isSome = true := by
  cases l with
  | nil => cases h
  | cons x xs => rfl

theorem sqlEq_some {a : Option String} {x : String} (h : sqlEq a (some x) = true) :
    a = some x := by
  cases a with
  | none => cases h
  | some y =>
    have : y = x := by
      have := h
      unfold sqlEq at this
      exact beq_iff_eq.mp this
    rw [this]

/-- Method `Database.get_station` matches the stored station code exactly: whatever
row it returns carries precisely the queried code string. -/
theorem get_station_exact {db : DB} {code : String} {s : StationRow} {c : CommuneRow}
    (h : get_station db code = some (s, c)) : s.code_station = some code := by
  unfold get_station at h
  have hmem : (s, c) ∈ (db.station.filter fun s0 =>
      sqlEq s0.code_station (some code)).flatMap fun s0 =>
        (db.commune.filter fun c0 => sqlEq s0.code_commune c0.code_commune).map
          fun c0 => (s0, c0) := by
    apply List.mem_of_mem_head?
    rw [h]
    rfl
  obtain ⟨s0, hs0, hmap⟩ := List.mem_flatMap.mp hmem
  obtain ⟨c0, _, heq⟩ := List.mem_map.mp hmap
  have hpair : s0 = s := congrArg Prod.fst heq
  have hfilter := (List.mem_filter.mp hs0).2
  rw [hpair] at hfilter
  exact sqlEq_some hfilter

/-- Method `DatabaseManager.get_station_by_code` finds every station whose
whitespace-stripped code equals the whitespace-stripped query, provided the
row joins to a commune, departement, region and cours_eau. -/
theorem get_station_by_code_found {db : DB} {q : String} {s : StationRow}
    {c : CommuneRow} {d : DepartementRow} {rr : RegionRow} {ce : CoursEauRow}
    {cs0 : String}
    (hs : s ∈ db.station) (hcs : s.code_station = some cs0)
    (hstrip : stripSpaces cs0 = stripSpaces q)
    (hc : c ∈ db.commune) (hjc : sqlEq s.code_commune c.code_commune = true)
    (hd : d ∈ db.departement) (hjd : sqlEq c.code_departement d.code_departement = true)
    (hr : rr ∈ db.region) (hjr : sqlEq d.code_region rr.code_region = true)
    (hce : ce ∈ db.cours_eau) (hjce : sqlEq s.code_cours_eau ce.code_cours_eau = true) :
    (get_station_by_code db q).isSome = true := by
  have hj : (⟨s, c, d, rr, ce⟩ : JoinedStation) ∈ joinedStations db := by
    unfold joinedStations
    refine List.mem_flatMap.mpr ⟨s, hs, ?_⟩
    refine List.mem_flatMap.mpr ⟨c, List.mem_filter.mpr ⟨hc, hjc⟩, ?_⟩
    refine List.mem_flatMap.mpr ⟨d, List.mem_filter.mpr ⟨hd, hjd⟩, ?_⟩
    refine List.mem_flatMap.mpr ⟨rr, List.mem_filter.mpr ⟨hr, hjr⟩, ?_⟩
    exact List.mem_map.mpr ⟨ce, List.mem_filter.mpr ⟨hce, hjce⟩, rfl⟩
  have hmemf : (⟨s, c, d, rr, ce⟩ : JoinedStation) ∈ (joinedStations db).filter
      (fun j => match j.s.code_station with
        | some cs => stripSpaces cs == stripSpaces q
        | none => false) := by
    refine List.mem_filter.mpr ⟨hj, ?_⟩
    show (match (⟨s, c, d, rr, ce⟩ : JoinedStation).s.code_station with
      | some cs => stripSpaces cs == stripSpaces q
      | none => false) = true
    simp only [hcs]
    rw [hstrip]
    exact beq_self_eq_true _
  unfold get_station_by_code
  exact head?_isSome_of_mem hmemf

/-! ## Ordering used by the commune/station listings -/

theorem leOpt_transitive (a b c : Option String) (hab : leOpt a b = true)
    (hbc : leOpt b c = true) : leOpt a c = true := by
  cases a with
  | none => rfl
  | some x =>
    cases b with
    | none => cases hab
    | some y =>
      cases c with
      | none => cases hbc
      | some z =>
        unfold leOpt at hab hbc ⊢
        rw [decide_eq_true_eq] at hab hbc ⊢
        exact le_trans hab hbc

theorem leOpt_total (a b : Option String) : (leOpt a b || leOpt b a) = true := by
  cases a with
  | none => rfl
  | some x =>
    cases b with
    | none => rfl
    | some y =>
      show (decide (x ≤ y) || decide (y ≤ x)) = true
      simp only [Bool.or_eq_true, decide_eq_true_eq]
      exact le_total x y

theorem get_communes_cap (db : DB) (code_dep : String) (limit : Nat) :
    (get_communes_by_departement db code_dep limit).length ≤ limit := by
  unfold get_communes_by_departement
  exact List.length_take_le _ _

theorem get_communes_sorted (db : DB) (code_dep : String) (limit : Nat) :
    List.Pairwise (fun a b => leOpt a.libelle_commune b.libelle_commune = true)
      (get_communes_by_departement db code_dep limit) := by
  unfold get_communes_by_departement
  refine List.Pairwise.sublist (List.take_sublist _ _) ?_
  exact List.sorted_mergeSort
    (fun a b c => leOpt_transitive a.libelle_commune b.libelle_commune c.libelle_commune)
    (fun a b => leOpt_total a.libelle_commune b.libelle_commune) _

theorem get_stations_cap (db : DB) (code_commune : String) (limit : Nat) :
    (get_stations_by_commune db code_commune limit).length ≤ limit := by
  unfold get_stations_by_commune
  exact List.length_take_le _ _

theorem get_stations_sorted (db : DB) (code_commune : String) (limit : Nat) :
    List.Pairwise (fun a b => leOpt a.libelle_station b.libelle_station = true)
      (get_stations_by_commune db code_commune limit) := by
  unfold get_stations_by_commune
  refine List.Pairwise.sublist (List.take_sublist _ _) ?_
  exact List.sorted_mergeSort
    (fun a b c => leOpt_transitive a.libelle_station b.libelle_station c.libelle_station)
    (fun a b => leOpt_total a.libelle_station b.libelle_station) _

/-! ## Claim theorems -/

/-- Claim C1, counterexample: `insert_station` contains no coordinate-range
check, so the record with latitude 95 (all five reference codes present) has
its station row persisted — the run succeeds and leaves a station row with
latitude 95 in the table, contradicting "a record with latitude = 95 is not
written to the station table". -/
theorem C1_counterexample :
    processRecord emptyDB rLat95 = Except.ok c1db95
    ∧ hasStationCode c1db95 (some "S95") = true
    ∧ (c1db95.station.any fun s => s.latitude == some (95 : Rat)) = true :=
  ⟨rfl, rfl, rfl⟩

/-- Claim C1, amended: a station row is persisted only if all five reference
codes (region, department, commune, basin, watercourse) are non-null and
non-empty; the importer applies no coordinate validation, so the latitude 95
record with all keys present is written just like the latitude 45 /
longitude 2 one. Formally: any station row present after processing a record
was either already stored or carries five truthy reference codes — and no
condition on its coordinates. -/
theorem C1_amended {db db' : DB} {r : Record}
    (h : processRecord db r = Except.ok db') {s : StationRow} (hs : s ∈ db'.station) :
    s ∈ db.station ∨ (truthy s.code_region = true ∧ truthy s.code_departement = true
      ∧ truthy s.code_commune = true ∧ truthy s.code_bassin = true
      ∧ truthy s.code_cours_eau = true) :=
  processRecord_station_codes h hs

/-- Claim C1, witness: instantiating the amended theorem on the valid
45/2-degree record processed against the empty store. -/
theorem C1_witness :
    truthy sFullRow.code_region = true ∧ truthy sFullRow.code_departement = true
    ∧ truthy sFullRow.code_commune = true ∧ truthy sFullRow.code_bassin = true
    ∧ truthy sFullRow.code_cours_eau = true := by
  have h := @C1_amended emptyDB cFullDB rFull rfl sFullRow (by decide)
  rcases h with hmem | hkeys
  · exact absurd hmem (List.not_mem_nil _)
  · exact hkeys

/-- Claim C2, counterexample: the loop commits once per record ("commit
intermédiaire"), so when page `[rFull, rDanglingDep]` dies on the second
record's uncaught IntegrityError, the first record's reference rows are
already durable — the page is not all-or-nothing. -/
theorem C2_counterexample :
    processPageRun ⟨emptyDB, emptyDB⟩ [rFull, rDanglingDep] = Except.error c2durable
    ∧ c2durable.region = [⟨some "R1", some "Reg"⟩]
    ∧ c2durable.commune = [⟨some "C1", some "Com", some "D1"⟩] :=
  ⟨rfl, rfl, rfl⟩

/-- Claim C2, amended: the importer is not atomic per page but per commit:
inside the loop each record's five reference inserts are committed before its
station insert (so a mid-page crash keeps every earlier commit of that page),
and a second commit runs at the end of the page, so a page that completes is
fully durable. -/
theorem C2_amended :
    (∀ (s : RunState) (r : Record) (s' : RunState),
      processRecordRun s r = Except.ok s' →
        insertParents s.session r = Except.ok s'.durable
        ∧ stationInsertOfRecord s'.durable r = Except.ok s'.session)
    ∧ (∀ (s : RunState) (recs : List Record) (s2 : RunState),
      processPageRun s recs = Except.ok s2 → s2.durable = s2.session) :=
  ⟨fun _ _ _ h => processRecordRun_elim h,
   fun _ recs _ h => processPageRun_durable recs h⟩

/-- Claim C2, witness: the amended theorem applied to the run of the single
valid record from the empty store, and to the one-record page. -/
theorem C2_witness :
    (insertParents emptyDB rFull = Except.ok cParentsDB
      ∧ stationInsertOfRecord cParentsDB rFull = Except.ok cFullDB)
    ∧ (match processPageRun runStart [rFull] with
        | Except.ok s2 => s2.durable = s2.session
        | Except.error _ => False) := by
  constructor
  · exact C2_amended.1 runStart rFull ⟨cParentsDB, cFullDB⟩ rfl
  · exact C2_amended.2 runStart [rFull] _ rfl

/-- Claim C3, counterexample: ingestion run twice is not always the same as
once. In `c3recs`, the first record's station is skipped on run one (its
basin row is missing, a caught IntegrityError), but the second record
supplies that basin — so the second full run inserts the station: 0 station
rows after one run, 1 after two. -/
theorem C3_counterexample :
    ((processAll emptyDB c3recs).map fun d => d.station.length) = Except.ok 0
    ∧ (((processAll emptyDB c3recs).bind fun d => processAll d c3recs).map
        fun d => d.station.length) = Except.ok 1 :=
  ⟨rfl, rfl⟩

/-- Claim C3, amended: every insert is indeed insert-if-absent on its natural
key (re-inserting an existing key is a silent no-op, no duplicate and no
error), and a second full run over the same records completes and leaves the
five reference tables exactly as the first run did; only the station table
can additionally grow (by stations whose missing parent arrived later within
the first run), and it only ever grows by appending. -/
theorem C3_amended :
    (∀ (db : DB) (c l : Option String), hasRegionCode db c = true →
      insert_region db c l = Except.ok db)
    ∧ (∀ (db : DB) (c l cr : Option String), hasDepartementCode db c = true →
      insert_departement db c l cr = Except.ok db)
    ∧ (∀ (db : DB) (c l cd : Option String), hasCommuneCode db c = true →
      insert_commune db c l cd = Except.ok db)
    ∧ (∀ (db : DB) (c l : Option String), hasBassinCode db c = true →
      insert_bassin db c l = Except.ok db)
    ∧ (∀ (db : DB) (c l u : Option String), hasCoursEauCode db c = true →
      insert_cours_eau db c l u = Except.ok db)
    ∧ (∀ (db : DB) (cs ls us es dm : Option String) (la lo cx cy : Option Rat)
        (cr cd cc cb ce : Option String), hasStationCode db cs = true →
      insert_station db cs ls us es dm la lo cx cy cr cd cc cb ce = Except.ok db)
    ∧ (∀ (db0 : DB) (recs : List Record) (db1 : DB),
        processAll db0 recs = Except.ok db1 →
        ∃ db2, processAll db1 recs = Except.ok db2
          ∧ db2.region = db1.region ∧ db2.departement = db1.departement
          ∧ db2.commune = db1.commune ∧ db2.bassin = db1.bassin
          ∧ db2.cours_eau = db1.cours_eau
          ∧ ∃ ext, db2.station = db1.station ++ ext) := by
  refine ⟨fun _ _ _ h => insert_region_noop h,
    fun _ _ _ _ h => insert_departement_noop h,
    fun _ _ _ _ h => insert_commune_noop h,
    fun _ _ _ h => insert_bassin_noop h,
    fun _ _ _ _ h => insert_cours_eau_noop h,
    fun _ _ _ _ _ _ _ _ _ _ _ _ _ _ _ h => insert_station_noop h,
    fun db0 recs db1 h => ?_⟩
  obtain ⟨db2, hrun, hrefs, ext, hext⟩ :=
    processAll_secondRun recs (processAll_refsDone h)
  exact ⟨db2, hrun, hrefs.1, hrefs.2.1, hrefs.2.2.1, hrefs.2.2.2.1, hrefs.2.2.2.2,
    ext, hext⟩

/-- Claim C3, witness: re-inserting the existing region key of the one-region
store is a no-op, and re-running the one-record ingestion after its first run
succeeds and preserves the reference tables. -/
theorem C3_witness :
    insert_region regionOnlyDB (some "R1") (some "OtherLabel") = Except.ok regionOnlyDB
    ∧ ∃ db2, processAll cFullDB [rFull] = Except.ok db2
      ∧ db2.region = cFullDB.region ∧ db2.departement = cFullDB.departement
      ∧ db2.commune = cFullDB.commune ∧ db2.bassin = cFullDB.bassin
      ∧ db2.cours_eau = cFullDB.cours_eau
      ∧ ∃ ext, db2.station = cFullDB.station ++ ext :=
  ⟨C3_amended.1 regionOnlyDB (some "R1") (some "OtherLabel") (by decide),
   C3_amended.2.2.2.2.2.2 emptyDB [rFull] cFullDB rfl⟩

/-- Claim C4, counterexample: a record whose commune and watercourse codes
are present and whose coordinates are in range, but whose region code is
absent, is dropped by `insert_station`'s five-key presence check — the run
succeeds and no station row is written, contradicting "absence of the
region, department, or basin code does not prevent the station from being
persisted". -/
theorem C4_counterexample :
    truthy (orNone rNoRegion.code_commune) = true
    ∧ truthy (orNone rNoRegion.code_cours_eau) = true
    ∧ rNoRegion.latitude = some 45 ∧ rNoRegion.longitude = some 2
    ∧ (processRecord emptyDB rNoRegion).map (fun d => d.station) = Except.ok [] :=
  ⟨rfl, rfl, rfl, rfl, rfl⟩

/-- Claim C4, amended: the station upsert requires all five reference codes
(region, department, commune, basin, watercourse) to be present, not just
the commune and watercourse codes; when a record carries all five codes
together with the labels their parent inserts require, the station key is
persisted — with no condition on the coordinates. -/
theorem C4_amended {db : DB} {r : Record}
    (hcr : truthy (orNone r.code_region) = true)
    (hlr : truthy (orNone r.libelle_region) = true)
    (hcd : truthy (orNone r.code_departement) = true)
    (hcc : truthy (orNone r.code_commune) = true)
    (hcb : truthy (orNone r.code_bassin) = true)
    (hlb : truthy (orNone r.libelle_bassin) = true)
    (hce : truthy (orNone r.code_cours_eau) = true)
    (hle : truthy (orNone r.libelle_cours_eau) = true)
    (hcs : truthy (orNone r.code_station) = true)
    (hls : truthy (orNone r.libelle_station) = true) :
    ∃ db', processRecord db r = Except.ok db'
      ∧ hasStationCode db' (orNone r.code_station) = true :=
  processRecord_station_inserted hcr hlr hcd hcc hcb hlb hce hle hcs hls

/-- Claim C4, witness: the amended theorem applied to the full record against
the empty store. -/
theorem C4_witness :
    ∃ db', processRecord emptyDB rFull = Except.ok db'
      ∧ hasStationCode db' (orNone rFull.code_station) = true :=
  @C4_amended emptyDB rFull (by decide) (by decide) (by decide)
    (by decide) (by decide) (by decide) (by decide) (by decide) (by decide) (by decide)

/-- Claim C5: a record with a full region/department/commune chain but no
watercourse code is processed without error, persists all three geography
keys, and leaves the station table untouched — the skipped station does not
undo its already-upserted parents. -/
theorem C5_theorem {db : DB} {r : Record}
    (hcr : truthy (orNone r.code_region) = true)
    (hlr : truthy (orNone r.libelle_region) = true)
    (hcd : truthy (orNone r.code_departement) = true)
    (hcc : truthy (orNone r.code_commune) = true)
    (hce : orNone r.code_cours_eau = none) :
    ∃ db', processRecord db r = Except.ok db'
      ∧ hasRegionCode db' (orNone r.code_region) = true
      ∧ hasDepartementCode db' (orNone r.code_departement) = true
      ∧ hasCommuneCode db' (orNone r.code_commune) = true
      ∧ db'.station = db.station :=
  processRecord_geography_only hcr hlr hcd hcc hce

/-- Claim C5, witness: the theorem applied to the watercourse-free record
against the empty store. -/
theorem C5_witness :
    ∃ db', processRecord emptyDB rNoCours = Except.ok db'
      ∧ hasRegionCode db' (orNone rNoCours.code_region) = true
      ∧ hasDepartementCode db' (orNone rNoCours.code_departement) = true
      ∧ hasCommuneCode db' (orNone rNoCours.code_commune) = true
      ∧ db'.station = emptyDB.station :=
  @C5_theorem emptyDB rNoCours (by decide) (by decide) (by decide)
    (by decide) (by decide)

/-- Claim C6: for a source serving exactly `PAGE_SIZE` records on each of
pages `1..N` and an empty page `N+1`, the loop (with enough fuel) processes
and commits exactly the `N` full pages and stops on the empty fetch before
any write: the final state is precisely the fold of pages `1..N`. -/
theorem C6_theorem (fetch : Nat → List Record) (N : Nat) (s0 sN : RunState)
    (fuel : Nat)
    (hfull : ∀ p, 1 ≤ p → p ≤ N → (fetch p).length = PAGE_SIZE)
    (hempty : fetch (N + 1) = [])
    (hok : pagesFold fetch s0 1 N = Except.ok sN)
    (hfuel : N + 1 ≤ fuel) :
    runPages fetch fuel 1 s0 = (Except.ok sN, N) := by
  apply runPages_spec fetch N 1 s0 sN fuel
  · intro i hi
    exact hfull (1 + i) (by omega) (by omega)
  · show fetch (1 + N) = []
    rw [Nat.add_comm]
    exact hempty
  · exact hok
  · exact hfuel

set_option maxRecDepth 400000 in
/-- Claim C6, witness: one full page of 500 blank records followed by an
empty page: exactly one page is processed and the loop stops. -/
theorem C6_witness :
    (∀ p, 1 ≤ p → p ≤ 1 → (fetchOnePage p).length = PAGE_SIZE)
    ∧ fetchOnePage 2 = []
    ∧ pagesFold fetchOnePage runStart 1 1 = Except.ok runStart
    ∧ runPages fetchOnePage 2 1 runStart = (Except.ok runStart, 1) := by
  have h1 : ∀ p, 1 ≤ p → p ≤ 1 → (fetchOnePage p).length = PAGE_SIZE := by
    intro p hp1 hp2
    have hp : p = 1 := by omega
    subst hp
    show (List.replicate 500 blankRecord).length = PAGE_SIZE
    rw [List.length_replicate]
    rfl
  have h3 : pagesFold fetchOnePage runStart 1 1 = Except.ok runStart := by rfl
  exact ⟨h1, rfl, h3, C6_theorem fetchOnePage 1 runStart runStart 2 h1 rfl h3 (by omega)⟩

/-- Claim C7, counterexample: the station stored with code `"A 123"` is not
found by `Database.get_station` (`app/models.py`) under the stripped key
`"A123"` — that lookup compares the stored code exactly, so the
whitespace-equivalence does not hold for all station-code lookups. -/
theorem C7_counterexample :
    (c7db.station.any fun s => s.code_station == some "A 123") = true
    ∧ get_station c7db "A123" = none :=
  ⟨rfl, rfl⟩

/-- Claim C7, amended: whitespace-stripped equivalence holds for
`DatabaseManager.get_station_by_code` (`code/models/database.py`), which
finds any joined station whose stripped stored code equals the stripped
query; `Database.get_station` (`app/models.py`) instead matches the stored
code exactly — any row it returns carries precisely the queried string. -/
theorem C7_amended :
    (∀ (db : DB) (q : String) (s : StationRow) (c : CommuneRow)
        (d : DepartementRow) (rr : RegionRow) (ce : CoursEauRow) (cs0 : String),
      s ∈ db.station → s.code_station = some cs0 →
      stripSpaces cs0 = stripSpaces q →
      c ∈ db.commune → sqlEq s.code_commune c.code_commune = true →
      d ∈ db.departement → sqlEq c.code_departement d.code_departement = true →
      rr ∈ db.region → sqlEq d.code_region rr.code_region = true →
      ce ∈ db.cours_eau → sqlEq s.code_cours_eau ce.code_cours_eau = true →
      (get_station_by_code db q).isSome = true)
    ∧ (∀ (db : DB) (code : String) (s : StationRow) (c : CommuneRow),
      get_station db code = some (s, c) → s.code_station = some code) :=
  ⟨fun _ _ _ _ _ _ _ _ hs hcs hstrip hc hjc hd hjd hr hjr hce hjce =>
    get_station_by_code_found hs hcs hstrip hc hjc hd hjd hr hjr hce hjce,
   fun _ _ _ _ h => get_station_exact h⟩

/-- Claim C7, witness: `get_station_by_code` does find the `"A 123"` station
under the query `"A123"`, and `get_station` queried with the exact stored
string returns a row carrying exactly that string. -/
theorem C7_witness :
    (get_station_by_code c7db "A123").isSome = true
    ∧ stA123sp.code_station = some "A 123" := by
  constructor
  · exact C7_amended.1 c7db "A123" stA123sp ⟨some "C1", some "Com", some "D1"⟩
      ⟨some "D1", some "Dep", some "R1"⟩ ⟨some "R1", some "Reg"⟩
      ⟨some "W1", some "Eau", none⟩ "A 123" (by decide) rfl (by decide)
      (by decide) (by decide) (by decide) (by decide) (by decide) (by decide)
      (by decide) (by decide)
  · exact C7_amended.2 c7db "A 123" stA123sp ⟨some "C1", some "Com", some "D1"⟩ rfl

/-- Claim C8, counterexample: an IntegrityError raised inside
`insert_departement` (a dangling region foreign key) is not caught there and
aborts the whole record — the try/except exists only in `insert_station`, so
the "caught at that insert for all six entity kinds" claim fails. -/
theorem C8_counterexample :
    insert_departement emptyDB (some "D9") none (some "R9")
      = Except.error SqlError.integrityError
    ∧ processRecord emptyDB rDanglingDep = Except.error SqlError.integrityError :=
  ⟨rfl, rfl⟩

/-- Claim C8, amended: only the station insert catches IntegrityError — it
always returns (a store, never a propagated error) — and the region, basin
and watercourse inserts cannot raise at all; the departement and commune
inserts, by contrast, propagate foreign-key IntegrityErrors uncaught (see
the counterexample). -/
theorem C8_amended :
    (∀ (db : DB) (cs ls us es dm : Option String) (la lo cx cy : Option Rat)
        (cr cd cc cb ce : Option String),
      ∃ db', insert_station db cs ls us es dm la lo cx cy cr cd cc cb ce
        = Except.ok db')
    ∧ (∀ (db : DB) (c l : Option String), ∃ db', insert_region db c l = Except.ok db')
    ∧ (∀ (db : DB) (c l : Option String), ∃ db', insert_bassin db c l = Except.ok db')
    ∧ (∀ (db : DB) (c l u : Option String),
      ∃ db', insert_cours_eau db c l u = Except.ok db') :=
  ⟨insert_station_total, insert_region_total, insert_bassin_total,
   insert_cours_eau_total⟩

/-- Claim C9, counterexample: on a store with one foreign-key violation (and
all tables non-empty), `test_database.py` still exits 0 — it prints the check
results but never branches to a nonzero exit, so not every integrity-check
entry point exits 1 on a failing check. -/
theorem C9_counterexample :
    fkViolationCount c9bad = 1 ∧ minRowsOk c9bad = true
    ∧ test_sae204_exit c9bad = 1 ∧ test_database_exit c9bad = 0 :=
  ⟨rfl, rfl, rfl, rfl⟩

/-- Claim C9, amended: `test_sae204.py` behaves as claimed — it exits 0
exactly when the foreign-key scan returns zero rows and every table meets its
minimum row count, and 1 otherwise — while `test_database.py` merely prints
its check results and always exits 0. -/
theorem C9_amended :
    (∀ db : DB, test_sae204_exit db
      = if fkViolationCount db = 0 ∧ minRowsOk db = true then 0 else 1)
    ∧ (∀ db : DB, test_database_exit db = 0) := by
  constructor
  · intro db
    unfold test_sae204_exit
    by_cases h1 : fkViolationCount db = 0
    · by_cases h2 : minRowsOk db = true
      · simp [h1, h2]
      · simp [h1, h2]
    · simp [h1]
  · intro db
    rfl

/-- Claim C10: both listing queries cap their result at `limit` rows — 20
when the caller passes none — and return rows ordered by label, for every
store and code. -/
theorem C10_theorem :
    ∀ (db : DB) (code_dep code_commune : String) (limit : Nat),
      (get_communes_by_departement db code_dep limit).length ≤ limit
      ∧ get_communes_by_departement db code_dep
        = get_communes_by_departement db code_dep 20
      ∧ List.Pairwise (fun a b => leOpt a.libelle_commune b.libelle_commune = true)
        (get_communes_by_departement db code_dep limit)
      ∧ (get_stations_by_commune db code_commune limit).length ≤ limit
      ∧ get_stations_by_commune db code_commune
        = get_stations_by_commune db code_commune 20
      ∧ List.Pairwise (fun a b => leOpt a.libelle_station b.libelle_station = true)
        (get_stations_by_commune db code_commune limit) :=
  fun db cd cc limit =>
    ⟨get_communes_cap db cd limit, rfl, get_communes_sorted db cd limit,
     get_stations_cap db cc limit, rfl, get_stations_sorted db cc limit⟩
